import Mathlib

/-!
Shallow embedding of the tc39-to-jira synchronization tool.

The tool reads the TC39 proposals dataset, renders a canonical description
per proposal, and issues create/update calls against a Jira instance
(`src/main.js`, plus the earlier variants in `src/unnamed/`).  The pure
decision logic is embedded below; network and file I/O are represented by
explicit inputs (page responses, gateway responses) threaded through the
functions.
-/

namespace TC39

/-! ### Calendar arithmetic

`Date.parse` on an ISO calendar-date string yields milliseconds since the
Unix epoch (UTC midnight of that day); `Intl.DateTimeFormat("en-CA",
{dateStyle: "short"})` formats a timestamp as a zero-padded `YYYY-MM-DD`
string for the calendar day of the timestamp in the runtime's local time
zone.  We embed both with exact civil-calendar arithmetic; the local time
zone is an explicit parameter `tz` (offset in minutes east of UTC), since
the JS formatter picks it up from the environment. -/

def isLeap (y : Int) : Bool :=
  y % 4 == 0 && (y % 100 != 0 || y % 400 == 0)

def daysInMonth (y m : Int) : Int :=
  if m = 1 then 31
  else if m = 2 then (if isLeap y then 29 else 28)
  else if m = 3 then 31
  else if m = 4 then 30
  else if m = 5 then 31
  else if m = 6 then 30
  else if m = 7 then 31
  else if m = 8 then 31
  else if m = 9 then 30
  else if m = 10 then 31
  else if m = 11 then 30
  else if m = 12 then 31
  else 0

/-- Days since 1970-01-01 of the civil date `(y, m, d)` (proleptic
Gregorian), the standard era-based conversion. -/
def daysFromCivil (y m d : Int) : Int :=
  let yy : Int := if m ≤ 2 then y - 1 else y
  let era : Int := Int.fdiv yy 400
  let yoe : Int := yy - era * 400
  let mp : Int := Int.emod (m + 9) 12
  let doy : Int := Int.fdiv (153 * mp + 2) 5 + d - 1
  let doe : Int := yoe * 365 + Int.fdiv yoe 4 - Int.fdiv yoe 100 + doy
  era * 146097 + doe - 719468

/-- Civil date `(y, m, d)` of the day `z` days after 1970-01-01. -/
def civilFromDays (z : Int) : Int × Int × Int :=
  let z' : Int := z + 719468
  let era : Int := Int.fdiv z' 146097
  let doe : Int := z' - era * 146097
  let yoe : Int :=
    Int.fdiv (doe - Int.fdiv doe 1460 + Int.fdiv doe 36524 - Int.fdiv doe 146096) 365
  let y : Int := yoe + era * 400
  let doy : Int := doe - (365 * yoe + Int.fdiv yoe 4 - Int.fdiv yoe 100)
  let mp : Int := Int.fdiv (5 * doy + 2) 153
  let d : Int := doy - Int.fdiv (153 * mp + 2) 5 + 1
  let m : Int := if mp < 10 then mp + 3 else mp - 9
  (if m ≤ 2 then y + 1 else y, m, d)

def digitVal (c : Char) : Nat := c.toNat - 48

/-- Models ECMAScript `Date.parse` restricted to ISO 8601 calendar-date
strings `YYYY-MM-DD` (interpreted as UTC midnight, per the Date Time
String Format): returns the timestamp in milliseconds since the epoch,
or `none` (the JS `NaN`) when the string is not a valid date of this
shape.  The notes of the TC39 dataset use exactly this format. -/
def dateParse (s : String) : Option Int :=
  match s.toList with
  | [y1, y2, y3, y4, h1, m1, m2, h2, d1, d2] =>
    if h1 = '-' ∧ h2 = '-' ∧
        y1.isDigit ∧ y2.isDigit ∧ y3.isDigit ∧ y4.isDigit ∧
        m1.isDigit ∧ m2.isDigit ∧ d1.isDigit ∧ d2.isDigit then
      let y : Int := (1000 * digitVal y1 + 100 * digitVal y2 + 10 * digitVal y3 + digitVal y4 : Nat)
      let m : Int := (10 * digitVal m1 + digitVal m2 : Nat)
      let d : Int := (10 * digitVal d1 + digitVal d2 : Nat)
      if 1 ≤ m ∧ m ≤ 12 ∧ 1 ≤ d ∧ d ≤ daysInMonth y m then
        some (daysFromCivil y m d * 86400000)
      else none
    else none
  | _ => none

def pad2 (n : Int) : String :=
  if n < 10 then "0" ++ toString n else toString n

def pad4 (n : Int) : String :=
  if n < 10 then "000" ++ toString n
  else if n < 100 then "00" ++ toString n
  else if n < 1000 then "0" ++ toString n
  else toString n

/-- `new Intl.DateTimeFormat("en-CA", {dateStyle: "short"}).format(ms)`:
the zero-padded `YYYY-MM-DD` rendering of the calendar day of `ms` in the
runtime's local time zone.  No `timeZone` option is given in the source,
so the ambient zone offset `tz` (minutes east of UTC) is an explicit
parameter here. -/
def fmtDate (tz ms : Int) : String :=
  let day : Int := Int.fdiv (ms + tz * 60000) 86400000
  let c := civilFromDays day
  pad4 c.1 ++ "-" ++ pad2 c.2.1 ++ "-" ++ pad2 c.2.2

/-! ### Notes and the description renderer (`parseTC39Dataset`, body) -/

structure Note where
  date : String
  url : String
deriving DecidableEq

/-- The note-collection loop of `parseTC39Dataset`:
`let date = Date.parse(note.date); if (date) notes.push({date, url})`.
JS truthiness: `NaN` and `0` are both falsy, so a note is retained only
when its timestamp parses and is nonzero. -/
def filterNotes (notes : List Note) : List (Int × String) :=
  notes.filterMap fun n =>
    match dateParse n.date with
    | none => none
    | some d => if d = 0 then none else some (d, n.url)

def noteLE (a b : Int × String) : Prop := a.1 ≤ b.1

instance : DecidableRel noteLE := fun a b => inferInstanceAs (Decidable (a.1 ≤ b.1))

instance : IsTotal (Int × String) noteLE := ⟨fun a b => Int.le_total a.1 b.1⟩

instance : IsTrans (Int × String) noteLE := ⟨fun _ _ _ hab hbc => le_trans hab hbc⟩

/-- `notes.sort((a, b) => a.date - b.date)`: a stable ascending sort by
timestamp (`Array.prototype.sort` is stable per ES2019, and any stable
sort with respect to this total preorder produces the same list, so
insertion sort is a faithful model). -/
def sortNotes (l : List (Int × String)) : List (Int × String) :=
  List.insertionSort noteLE l

/-- The description built in `parseTC39Dataset`: the `noteString`
accumulation loop followed by the template
`` `id: ${proposal.id}\nurl: ${proposal.url}\n${noteString}` ``. -/
def render (id url : String) (notes : List Note) (tz : Int) : String :=
  let noteString :=
    (sortNotes (filterNotes notes)).foldl
      (fun s n => s ++ ("  - " ++ fmtDate tz n.1 ++ ": " ++ n.2 ++ "\n")) "notes:\n"
  "id: " ++ id ++ "\n" ++ "url: " ++ url ++ "\n" ++ noteString

/-- Spec-shaped form of the note block: one `  - <date>: <url>` line per
note, in list order. -/
def noteLines (tz : Int) : List (Int × String) → String
  | [] => ""
  | n :: rest => "  - " ++ fmtDate tz n.1 ++ ": " ++ n.2 ++ "\n" ++ noteLines tz rest

/-! ### Proposals, the stage table and the sync planner -/

/-- One record of the TC39 dataset, as consumed by `parseTC39Dataset`.
`stage` is a JS number (the dataset uses 1, 2, 2.7, 3, 4), embedded as a
rational; `edition` is absent except for stage-4 proposals; `id` may be
absent. -/
structure Proposal where
  id : Option String
  name : String
  url : String
  stage : ℚ
  edition : Option Int
  notes : List Note
deriving DecidableEq

/-- The JS comparison `proposal.edition < cutoff`: when `edition` is
`undefined` the comparison is `NaN < cutoff`, which is `false`. -/
def editionBefore (e : Option Int) (cutoff : Int) : Bool :=
  match e with
  | none => false
  | some v => v < cutoff

/-- The `STAGE_EPICS` table: JS property lookup `STAGE_EPICS[stage]`
keyed by the decimal rendering of the stage number; stages outside the
table yield `undefined`. -/
def stageEpics (s : ℚ) : Option String :=
  if s = 1 then some "SJP-184"
  else if s = 2 then some "SJP-185"
  else if s = 2.7 then some "SJP-186"
  else if s = 3 then some "SJP-187"
  else if s = 4 then some "SJP-188"
  else none

/-- The payload of `createIssue`: project key, parent epic, summary,
issue type, description and component, exactly the fields of
`createBlob`. -/
structure CreateFields where
  projectKey : String
  parent : Option String
  summary : String
  issuetype : Nat
  description : String
  component : String
deriving DecidableEq

/-- The payload of `updateIssue`: `updateBlob` carries only the parent
re-assignment and the description replacement — no summary. -/
structure UpdateFields where
  parent : Option String
  descriptionSet : String
deriving DecidableEq

inductive Action where
  | create (fields : CreateFields)
  | update (issueKey : String) (fields : UpdateFields)
deriving DecidableEq

def actionParent : Action → Option String
  | .create f => f.parent
  | .update _ f => f.parent

/-- Identifier Index: JS `Map` / plain-object semantics.  Assignment
overwrites the value of an existing key in place and appends a fresh key
at the end. -/
def setAssoc (m : List (String × String)) (k v : String) : List (String × String) :=
  if m.any (fun p => p.1 == k) then
    m.map (fun p => if p.1 == k then (k, v) else p)
  else m ++ [(k, v)]

def lookupAssoc (m : List (String × String)) (k : String) : Option String :=
  (m.find? (fun p => p.1 == k)).map (fun p => p.2)

/-- The per-proposal body of the loop in `parseTC39Dataset`: the
relevance filter (`stage >= 1`, the stage-4 edition cutoff, the missing
identifier guard), then the create/update decision against the index.
Returns `none` for "skip, no gateway call", otherwise the one call
issued for this proposal. -/
def planProposal (index : List (String × String)) (tz : Int) (p : Proposal) : Option Action :=
  if 1 ≤ p.stage then
    if p.stage = 4 ∧ editionBefore p.edition 2024 = true then none
    else
      match p.id with
      | none => none
      | some pid =>
        let description := render pid p.url p.notes tz
        match lookupAssoc index pid with
        | none =>
          some (Action.create ⟨"SJP", stageEpics p.stage, p.name, 10030, description, "TC39 Proposals"⟩)
        | some key =>
          some (Action.update key ⟨stageEpics p.stage, description⟩)
  else none

/-- The whole run of `parseTC39Dataset` seen as the sequence of gateway
calls it issues.  When `getIssues` failed (`index = none`, the JS
`undefined`), the run crashes with a `TypeError` on `issueKeys.get`
before any call is issued: modelled as `none` (no call sequence
produced). -/
def runSync (index : Option (List (String × String))) (tz : Int)
    (ps : List Proposal) : Option (List Action) :=
  match index with
  | none => none
  | some idx => some (ps.filterMap (planProposal idx tz))

/-! ### Gateway outcomes (`createIssue` / `updateIssue` result handling) -/

/-- The service's response to one create/update call, as observed by the
source: HTTP status, the returned key, the error payload, the status
text. -/
structure GwResp where
  status : Nat
  key : String
  errors : String
  statusText : String

/-- The log line of `createIssue`: success on 201, otherwise the error
line with the status and the error payload. -/
def createLog (name : String) (r : GwResp) : String :=
  if r.status == 201 then "Created issue for " ++ name ++ " with key: " ++ r.key
  else "Error creating issue for " ++ name ++ ": " ++ toString r.status ++ ": " ++ r.errors

/-- The log line of `updateIssue`: success on 204, otherwise the error
line. -/
def updateLog (issueKey : String) (r : GwResp) : String :=
  if r.status == 204 then "Successfully updated " ++ issueKey ++ ": " ++ r.statusText
  else "Error: could not update " ++ issueKey ++ ": " ++ r.statusText

def mkLog (a : Action) (r : GwResp) : String :=
  match a with
  | .create f => createLog f.summary r
  | .update k _ => updateLog k r

/-- The run with per-call outcomes: `gw n` is the service's response to
the `n`-th gateway call.  Both `createIssue` and `updateIssue` only log
the outcome and return, so the loop continues unconditionally. -/
def runCallsGo (index : List (String × String)) (tz : Int) (gw : Nat → GwResp) :
    Nat → List Proposal → List (Action × String)
  | _, [] => []
  | n, p :: ps =>
    match planProposal index tz p with
    | none => runCallsGo index tz gw n ps
    | some a => (a, mkLog a (gw n)) :: runCallsGo index tz gw (n + 1) ps

/-! ### Regex scanners (`/(SJP\-[0-9]+)/` and `/id: ([A-Za-z0-9.-]+)/`) -/

/-- The character class `[A-Za-z0-9.-]`. -/
def isIdChar (c : Char) : Bool :=
  c.isAlpha || c.isDigit || c == '.' || c == '-'

/-- Leftmost match of `/(SJP\-[0-9]+)/`: at each position try to read
`SJP-` followed by a maximal nonempty digit run, else advance one
character. -/
def scanKey : List Char → Option String
  | [] => none
  | c :: rest =>
    if c = 'S' then
      match rest with
      | 'J' :: 'P' :: '-' :: tail =>
        let ds := tail.takeWhile Char.isDigit
        if ds.isEmpty then scanKey rest else some ("SJP-" ++ String.mk ds)
      | _ => scanKey rest
    else scanKey rest

/-- Leftmost match of `/id: ([A-Za-z0-9.-]+)/`, returning capture group
1 (the identifier). -/
def scanId : List Char → Option String
  | [] => none
  | c :: rest =>
    if c = 'i' then
      match rest with
      | 'd' :: ':' :: ' ' :: tail =>
        let ds := tail.takeWhile isIdChar
        if ds.isEmpty then scanId rest else some (String.mk ds)
      | _ => scanId rest
    else scanId rest

def matchKey (s : String) : Option String := scanKey s.toList

def matchId (s : String) : Option String := scanId s.toList

/-! ### Bulk CSV import (`parseJiraCsv`) -/

/-- One line of `parseJiraCsv`: require a key match and an id match,
skip the placeholder id `"undefined"`, then `mapping[id[1]] = key[1]`. -/
def csvStep (m : List (String × String)) (line : String) : List (String × String) :=
  match matchKey line with
  | none => m
  | some key =>
    match matchId line with
    | none => m
    | some id => if id == "undefined" then m else setAssoc m id key

def parseJiraCsv (lines : List String) : List (String × String) :=
  lines.foldl csvStep []

/-! ### Live-query index construction (`getIssues`) -/

/-- One issue of a search-response page: only the key and the
description field are consumed by the source. -/
structure JiraIssue where
  key : String
  description : Option String
deriving DecidableEq

/-- One page response of the paginated search: HTTP status, the
service-reported total, and the returned issues. -/
structure PageResp where
  status : Nat
  total : Nat
  issues : List JiraIssue
deriving DecidableEq

/-- Per-issue extraction in `getIssues`: `if (issue.fields.description)`
(undefined and the empty string are falsy), then the `id:` marker match,
the `"undefined"` placeholder guard, and `mapping.set(id[1], issue.key)`. -/
def extractIssue (m : List (String × String)) (iss : JiraIssue) : List (String × String) :=
  match iss.description with
  | none => m
  | some d =>
    if d == "" then m
    else
      match matchId d with
      | none => m
      | some id => if id == "undefined" then m else setAssoc m id iss.key

/-- The `while (startAt < totalResults)` loop of `getIssues`.  `server
off` is the service's response to the page request at offset `off`; the
requested offsets are accumulated alongside the mapping.  A non-200
status returns `none` (the source's bare `return`, i.e. `undefined`).
`fuel` bounds the iteration count (the JS loop has no such bound; every
theorem below supplies sufficient fuel explicitly). -/
def getIssuesGo (server : Nat → PageResp) :
    Nat → Nat → Nat → List Nat → List (String × String) →
    Option (List Nat × List (String × String))
  | 0, _, _, _, _ => none
  | fuel + 1, startAt, totalResults, offsets, mapping =>
    if startAt < totalResults then
      let resp := server startAt
      if resp.status == 200 then
        getIssuesGo server fuel (startAt + 100) resp.total (offsets ++ [startAt])
          (resp.issues.foldl extractIssue mapping)
      else none
    else some (offsets, mapping)

/-- `getIssues`: `startAt = 0`, `totalResults = 1` (sentinel forcing the
first request), empty mapping. -/
def getIssues (server : Nat → PageResp) (fuel : Nat) :
    Option (List Nat × List (String × String)) :=
  getIssuesGo server fuel 0 1 [] []

/-- The offsets `0, 100, 200, …` of the `⌈T/100⌉` pages a run with
service-reported total `T` requests. -/
def pageOffsets (T : Nat) : List Nat :=
  (List.range ((T + 99) / 100)).map (fun k => 100 * k)

/-- Concrete page servers used by the witnesses below. -/
def serverOnePage (off : Nat) : PageResp :=
  if off = 0 then ⟨200, 1, [⟨"SJP-50", some "id: q1"⟩]⟩ else ⟨404, 1, []⟩

def server250 (off : Nat) : PageResp :=
  if off = 0 then ⟨200, 250, [⟨"SJP-101", some "id: p0"⟩]⟩
  else if off = 100 then ⟨200, 250, [⟨"SJP-102", some "id: p100"⟩]⟩
  else ⟨200, 250, [⟨"SJP-103", some "id: p200"⟩]⟩

end TC39

namespace TC39

/-! ### Helper lemmas -/

lemma planProposal_relevant_isSome (index : List (String × String)) (tz : Int) (p : Proposal)
    (h1 : 1 ≤ p.stage)
    (hne : ¬(p.stage = 4 ∧ editionBefore p.edition 2024 = true))
    (hid : p.id.isSome = true) :
    (planProposal index tz p).isSome = true := by
  simp only [planProposal]
  rw [if_pos h1, if_neg hne]
  match hpid : p.id with
  | none => rw [hpid] at hid; simp at hid
  | some pid =>
    simp only
    cases lookupAssoc index pid <;> simp

lemma foldl_noteLines (tz : Int) (l : List (Int × String)) :
    ∀ s : String,
      l.foldl (fun acc n => acc ++ ("  - " ++ fmtDate tz n.1 ++ ": " ++ n.2 ++ "\n")) s =
        s ++ noteLines tz l := by
  induction l with
  | nil => intro s; simp [noteLines]
  | cons n rest ih =>
    intro s
    simp only [List.foldl_cons, noteLines, ih]
    simp [String.append_assoc]

lemma filter_orderedInsert (t : Int) (a : Int × String) :
    ∀ L : List (Int × String),
      (L.orderedInsert noteLE a).filter (fun n => n.1 == t) =
        if a.1 == t then a :: L.filter (fun n => n.1 == t)
        else L.filter (fun n => n.1 == t) := by
  intro L
  induction L with
  | nil =>
    cases hat : (a.1 == t) <;> simp [List.orderedInsert, List.filter_cons, hat]
  | cons b L ih =>
    by_cases hab : noteLE a b
    · rw [List.orderedInsert, if_pos hab]
      cases hat : (a.1 == t) <;> simp [List.filter_cons, hat]
    · rw [List.orderedInsert, if_neg hab]
      have hblt : b.1 < a.1 := not_le.mp hab
      cases hat : (a.1 == t) with
      | true =>
        have hat' : a.1 = t := by simpa using hat
        have hbt : (b.1 == t) = false := by
          simp only [beq_eq_false_iff_ne, ne_eq]
          omega
        simp [List.filter_cons, hbt, ih, hat]
      | false =>
        simp [List.filter_cons, ih, hat]

lemma filter_sortNotes (t : Int) :
    ∀ l, (sortNotes l).filter (fun n => n.1 == t) = l.filter (fun n => n.1 == t) := by
  intro l
  induction l with
  | nil => rfl
  | cons a l ih =>
    simp only [sortNotes, List.insertionSort] at *
    rw [filter_orderedInsert]
    cases hat : (a.1 == t) <;> simp [List.filter_cons, hat, ih]

/-! ### Claim C4 -/

/-- C4: the relevance filter short-circuits to skip (no create or update
call) when the stage is below 1, when the stage is 4 and the edition
predates 2024, or when the identifier is absent (regardless of stage);
a stage-ge-1 proposal not hit by the cutoff and carrying an identifier is
processed on to the create/update decision. -/
theorem relevance_filter_skips (index : List (String × String)) (tz : Int) (p : Proposal) :
    (p.stage < 1 → planProposal index tz p = none)
    ∧ (p.stage = 4 → editionBefore p.edition 2024 = true → planProposal index tz p = none)
    ∧ (p.id = none → planProposal index tz p = none)
    ∧ (1 ≤ p.stage → ¬(p.stage = 4 ∧ editionBefore p.edition 2024 = true) →
        p.id.isSome = true → (planProposal index tz p).isSome = true) := by
  refine ⟨?_, ?_, ?_, planProposal_relevant_isSome index tz p⟩
  · intro h
    simp only [planProposal]
    rw [if_neg (not_le.mpr h)]
  · intro h4 hed
    simp only [planProposal]
    rw [if_pos (by rw [h4]; norm_num), if_pos ⟨h4, hed⟩]
  · intro hid
    simp only [planProposal, hid]
    split_ifs <;> rfl

/-- C4 witness: a stage-4 proposal with edition 2023 is skipped; one with
edition 2024 (and an identifier) is processed; a proposal without an
identifier is skipped at stage 3. -/
theorem relevance_filter_skips_witness :
    planProposal [] 0 ⟨some "x", "N", "u", 4, some 2023, []⟩ = none
    ∧ (planProposal [] 0 ⟨some "x", "N", "u", 4, some 2024, []⟩).isSome = true
    ∧ planProposal [] 0 ⟨none, "N", "u", 3, none, []⟩ = none := by
  refine ⟨?_, ?_, ?_⟩
  · exact (relevance_filter_skips [] 0 _).2.1 rfl (by decide)
  · exact (relevance_filter_skips [] 0 _).2.2.2 (by norm_num) (by decide) rfl
  · exact (relevance_filter_skips [] 0 _).2.2.1 rfl

/-! ### Claim C10 -/

/-- C10: a stage-4 proposal whose edition field is absent is not hit by
the edition cutoff (the JS comparison `undefined < 2024` is false), so
with an identifier present it proceeds to the create/update decision. -/
theorem missing_edition_not_cut (index : List (String × String)) (tz : Int)
    (p : Proposal) (pid : String)
    (h4 : p.stage = 4) (hed : p.edition = none) (hid : p.id = some pid) :
    editionBefore p.edition 2024 = false ∧ (planProposal index tz p).isSome = true := by
  have hfalse : editionBefore p.edition 2024 = false := by rw [hed]; rfl
  refine ⟨hfalse, planProposal_relevant_isSome index tz p ?_ ?_ ?_⟩
  · rw [h4]; norm_num
  · rintro ⟨-, hcontra⟩
    rw [hfalse] at hcontra
    exact Bool.false_ne_true hcontra
  · rw [hid]; rfl

/-- C10 witness: concrete stage-4 proposal with no edition and id `x`. -/
theorem missing_edition_not_cut_witness :
    editionBefore (Proposal.edition ⟨some "x", "N", "u", 4, none, []⟩) 2024 = false
    ∧ (planProposal [] 0 ⟨some "x", "N", "u", 4, none, []⟩).isSome = true :=
  missing_edition_not_cut [] 0 ⟨some "x", "N", "u", 4, none, []⟩ "x" rfl rfl rfl

/-! ### Claim C3 -/

/-- C3: for a relevant proposal with identifier `pid`, if `pid` is absent
from the index exactly the create call is issued (summary = proposal
name, description = rendered text, parent = stage-mapped epic, fixed
component); if present, exactly the update call against the mapped key,
carrying only the description replacement and parent re-assignment and no
summary field. -/
theorem create_update_branch (index : List (String × String)) (tz : Int)
    (p : Proposal) (pid : String)
    (h1 : 1 ≤ p.stage)
    (hne : ¬(p.stage = 4 ∧ editionBefore p.edition 2024 = true))
    (hid : p.id = some pid) :
    (lookupAssoc index pid = none →
      planProposal index tz p =
        some (Action.create
          ⟨"SJP", stageEpics p.stage, p.name, 10030, render pid p.url p.notes tz, "TC39 Proposals"⟩))
    ∧ (∀ key, lookupAssoc index pid = some key →
      planProposal index tz p =
        some (Action.update key ⟨stageEpics p.stage, render pid p.url p.notes tz⟩)) := by
  constructor
  · intro hlk
    simp only [planProposal, hid]
    rw [if_pos h1, if_neg hne]
    simp [hlk]
  · intro key hlk
    simp only [planProposal, hid]
    rw [if_pos h1, if_neg hne]
    simp [hlk]

/-- C3 witness: a stage-2 proposal absent from the index yields the
create call; present in the index it yields the update call. -/
theorem create_update_branch_witness :
    planProposal [] 0 ⟨some "x", "N", "u", 2, none, []⟩ =
      some (Action.create
        ⟨"SJP", stageEpics 2, "N", 10030, render "x" "u" [] 0, "TC39 Proposals"⟩)
    ∧ planProposal [("x", "SJP-9")] 0 ⟨some "x", "N", "u", 2, none, []⟩ =
      some (Action.update "SJP-9" ⟨stageEpics 2, render "x" "u" [] 0⟩) := by
  constructor
  · exact (create_update_branch [] 0 ⟨some "x", "N", "u", 2, none, []⟩ "x"
      (by norm_num) (by decide) rfl).1 rfl
  · exact (create_update_branch [("x", "SJP-9")] 0 ⟨some "x", "N", "u", 2, none, []⟩ "x"
      (by norm_num) (by decide) rfl).2 "SJP-9" rfl

/-! ### Claim C9 -/

/-- C9: every stage of the dataset's stage set (1, 2, 2.7, 3, 4) — all of
which pass the relevance filter — has an entry in the stage-to-parent
table, the table is exactly {1 -> SJP-184, 2 -> SJP-185, 2.7 -> SJP-186,
3 -> SJP-187, 4 -> SJP-188}, and every issued create or update call uses
precisely the mapped key as its parent. -/
theorem stage_parent_mapping (s : ℚ) (index : List (String × String)) (tz : Int)
    (p : Proposal) (a : Action)
    (hs : s = 1 ∨ s = 2 ∨ s = 2.7 ∨ s = 3 ∨ s = 4)
    (ha : planProposal index tz p = some a) :
    (stageEpics s).isSome = true
    ∧ stageEpics 1 = some "SJP-184" ∧ stageEpics 2 = some "SJP-185"
    ∧ stageEpics 2.7 = some "SJP-186" ∧ stageEpics 3 = some "SJP-187"
    ∧ stageEpics 4 = some "SJP-188"
    ∧ actionParent a = stageEpics p.stage := by
  refine ⟨?_, by norm_num [stageEpics], by norm_num [stageEpics], by norm_num [stageEpics],
    by norm_num [stageEpics], by norm_num [stageEpics], ?_⟩
  · rcases hs with h | h | h | h | h <;> subst h <;> norm_num [stageEpics]
  · simp only [planProposal] at ha
    split_ifs at ha with h1 hcut
    · cases hpid : p.id with
      | none => rw [hpid] at ha; exact absurd ha (by simp)
      | some pid =>
        rw [hpid] at ha
        simp only at ha
        cases hlk : lookupAssoc index pid <;> rw [hlk] at ha <;>
          simp only [Option.some.injEq] at ha <;> rw [← ha] <;> rfl

/-- C9 witness: stage 2.7 table entry, and a concrete create call whose
parent is the mapped key. -/
theorem stage_parent_mapping_witness :
    (stageEpics 2.7).isSome = true
    ∧ stageEpics 1 = some "SJP-184" ∧ stageEpics 2 = some "SJP-185"
    ∧ stageEpics 2.7 = some "SJP-186" ∧ stageEpics 3 = some "SJP-187"
    ∧ stageEpics 4 = some "SJP-188"
    ∧ actionParent (Action.create
        ⟨"SJP", stageEpics 3, "N", 10030, render "x" "u" [] 0, "TC39 Proposals"⟩) =
      stageEpics (Proposal.stage ⟨some "x", "N", "u", 3, none, []⟩) :=
  stage_parent_mapping 2.7 [] 0 ⟨some "x", "N", "u", 3, none, []⟩
    (Action.create ⟨"SJP", stageEpics 3, "N", 10030, render "x" "u" [] 0, "TC39 Proposals"⟩)
    (Or.inr (Or.inr (Or.inl rfl))) rfl

/-! ### Claim C8 -/

/-- C8: per-call outcomes never stop the run: whatever statuses the
gateway returns (`gw`), the sequence of calls issued is exactly the
planned action per relevant proposal, iterated to the end of the
dataset; each failing create is logged with its status and error
payload. -/
theorem run_continues_on_failure (index : List (String × String)) (tz : Int)
    (gw : Nat → GwResp) (n : Nat) (ps : List Proposal) :
    (runCallsGo index tz gw n ps).map Prod.fst = ps.filterMap (planProposal index tz)
    ∧ (∀ f : CreateFields, ∀ r : GwResp,
        mkLog (Action.create f) r =
          if r.status == 201 then "Created issue for " ++ f.summary ++ " with key: " ++ r.key
          else "Error creating issue for " ++ f.summary ++ ": " ++ toString r.status ++ ": " ++ r.errors) := by
  constructor
  · induction ps generalizing n with
    | nil => rfl
    | cons p ps ih =>
      simp only [runCallsGo, List.filterMap_cons]
      cases h : planProposal index tz p with
      | none => simpa using ih n
      | some a => simpa using ih (n + 1)
  · intro f r
    rfl

/-! ### Claim C7 -/

/-- C7: a line of the bulk export contributes an association exactly when
it contains both a key matching `SJP-<digits>` and an `id: <identifier>`
marker whose captured identifier is not the placeholder `"undefined"`;
the contribution overwrites any earlier entry for the same identifier
(last line wins). -/
theorem csv_line_contribution (lines : List String) (l : String) :
    (∀ key id, matchKey l = some key → matchId l = some id → id ≠ "undefined" →
        parseJiraCsv (lines ++ [l]) = setAssoc (parseJiraCsv lines) id key)
    ∧ ((matchKey l = none ∨ matchId l = none ∨ matchId l = some "undefined") →
        parseJiraCsv (lines ++ [l]) = parseJiraCsv lines) := by
  have hfold : parseJiraCsv (lines ++ [l]) = csvStep (parseJiraCsv lines) l := by
    simp [parseJiraCsv, List.foldl_append]
  constructor
  · intro key id hk hi hne
    rw [hfold]
    simp [csvStep, hk, hi, hne]
  · rintro (h | h | h) <;> rw [hfold]
    · simp [csvStep, h]
    · cases hk : matchKey l <;> simp [csvStep, hk, h]
    · cases hk : matchKey l <;> simp [csvStep, hk, h]

/-- C7 witness: the spec's example — a line with a valid key and
`id: foo-1` contributes `foo-1 -> SJP-12`; a line with a valid key but
`id: undefined` contributes nothing; a later line with the same
identifier overwrites the earlier key. -/
theorem csv_line_contribution_witness :
    parseJiraCsv (["a SJP-12 id: foo-1"] ++ ["b SJP-13 id: undefined"]) =
      parseJiraCsv ["a SJP-12 id: foo-1"]
    ∧ parseJiraCsv ([] ++ ["a SJP-12 id: foo-1"]) = setAssoc (parseJiraCsv []) "foo-1" "SJP-12"
    ∧ parseJiraCsv (["a SJP-12 id: foo-1"] ++ ["c SJP-44 id: foo-1"]) =
      setAssoc (parseJiraCsv ["a SJP-12 id: foo-1"]) "foo-1" "SJP-44"
    ∧ parseJiraCsv ["a SJP-12 id: foo-1"] = [("foo-1", "SJP-12")] := by
  refine ⟨?_, ?_, ?_, by decide⟩
  · exact (csv_line_contribution ["a SJP-12 id: foo-1"] "b SJP-13 id: undefined").2
      (Or.inr (Or.inr (by decide)))
  · exact (csv_line_contribution [] "a SJP-12 id: foo-1").1 "SJP-12" "foo-1"
      (by decide) (by decide) (by decide)
  · exact (csv_line_contribution ["a SJP-12 id: foo-1"] "c SJP-44 id: foo-1").1 "SJP-44" "foo-1"
      (by decide) (by decide) (by decide)

/-! ### Claim C6 -/

lemma getIssuesGo_status (server : Nat → PageResp) :
    ∀ fuel s t offs m offsets mapping,
      getIssuesGo server fuel s t offs m = some (offsets, mapping) →
      ∀ off ∈ offsets, off ∈ offs ∨ (server off).status = 200 := by
  intro fuel
  induction fuel with
  | zero =>
    intro s t offs m offsets mapping h
    simp [getIssuesGo] at h
  | succ fuel ih =>
    intro s t offs m offsets mapping h off hoff
    simp only [getIssuesGo] at h
    split_ifs at h with hlt h200
    · rcases ih _ _ _ _ _ _ h off hoff with hin | hst
      · rcases List.mem_append.mp hin with hin | hin
        · exact Or.inl hin
        · simp only [List.mem_singleton] at hin
          subst hin
          exact Or.inr (by simpa using h200)
      · exact Or.inr hst
    · have h1 : offs = offsets := congrArg Prod.fst (Option.some.inj h)
      exact Or.inl (by rw [h1]; exact hoff)

/-- C6: a produced index certifies that every requested page returned
success — equivalently, a non-success response at any requested page
makes `getIssues` return no index at all (never a partial one) — and a
run whose index construction failed issues no create or update call for
any proposal. -/
theorem abort_on_page_failure :
    (∀ server fuel offsets mapping,
      getIssues server fuel = some (offsets, mapping) →
      ∀ off ∈ offsets, (server off).status = 200)
    ∧ (∀ tz ps, runSync none tz ps = none) := by
  constructor
  · intro server fuel offsets mapping h off hoff
    rcases getIssuesGo_status server fuel 0 1 [] [] offsets mapping h off hoff with hin | hst
    · simp at hin
    · exact hst
  · intro tz ps
    rfl

/-- C6 witness: a successful one-page construction certifies its page's
status, and the failed-index run issues no calls. -/
theorem abort_on_page_failure_witness :
    (serverOnePage 0).status = 200
    ∧ runSync none 0 [⟨some "x", "N", "u", 3, none, []⟩] = none := by
  constructor
  · exact abort_on_page_failure.1 serverOnePage 3 [0] [("q1", "SJP-50")] (by decide) 0
      (by decide)
  · exact abort_on_page_failure.2 0 [⟨some "x", "N", "u", 3, none, []⟩]

/-! ### Claim C5 -/

lemma pageCount_step {T s : Nat} (h : s < T) :
    (T - s + 99) / 100 = (T - (s + 100) + 99) / 100 + 1 := by
  omega

lemma range_map_offsets (s n : Nat) :
    (List.range (n + 1)).map (fun k => s + 100 * k) =
      s :: (List.range n).map (fun k => (s + 100) + 100 * k) := by
  rw [List.range_succ_eq_map, List.map_cons, List.map_map]
  refine congrArg₂ _ (by simp) ?_
  refine List.map_congr_left ?_
  intro k _
  simp [Function.comp]
  ring

lemma getIssuesGo_const (server : Nat → PageResp) (T : Nat)
    (hst : ∀ off, (server off).status = 200)
    (htot : ∀ off, (server off).total = T) :
    ∀ fuel s offs m, (T - s + 99) / 100 + 1 ≤ fuel →
      getIssuesGo server fuel s T offs m =
        some (offs ++ (List.range ((T - s + 99) / 100)).map (fun k => s + 100 * k),
          ((List.range ((T - s + 99) / 100)).map (fun k => s + 100 * k)).foldl
            (fun mm off => (server off).issues.foldl extractIssue mm) m) := by
  intro fuel
  induction fuel with
  | zero => intro s offs m h; omega
  | succ fuel ih =>
    intro s offs m h
    by_cases hlt : s < T
    · have hpl := pageCount_step hlt
      simp only [getIssuesGo]
      rw [if_pos hlt, if_pos (by simp [hst]), htot s]
      rw [ih (s + 100) (offs ++ [s]) _ (by omega)]
      rw [hpl, range_map_offsets]
      simp [List.foldl_cons, List.append_assoc]
    · have hz : (T - s + 99) / 100 = 0 := by omega
      simp only [getIssuesGo]
      rw [if_neg hlt, hz]
      simp

/-- C5: against a service consistently reporting total `T` (with all
pages succeeding and enough fuel for the loop), the live query requests
exactly the pages at offsets `0, 100, …, 100·(⌈T/100⌉−1)` and returns the
merge of the identifiers extracted from every returned record, in page
order. -/
theorem pagination_shape (server : Nat → PageResp) (T fuel : Nat)
    (hT : 1 ≤ T)
    (hst : ∀ off, (server off).status = 200)
    (htot : ∀ off, (server off).total = T)
    (hfuel : (T + 99) / 100 + 1 ≤ fuel) :
    getIssues server fuel =
      some (pageOffsets T,
        (pageOffsets T).foldl (fun m off => (server off).issues.foldl extractIssue m) []) := by
  obtain ⟨f, rfl⟩ : ∃ f, fuel = f + 1 := ⟨fuel - 1, by omega⟩
  simp only [getIssues, getIssuesGo]
  rw [if_pos (by omega : (0 : Nat) < 1), if_pos (by simp [hst]), htot 0]
  simp only [Nat.zero_add, List.nil_append]
  rw [getIssuesGo_const server T hst htot f 100 [0] _ (by omega)]
  have hsplit : (T + 99) / 100 = (T - 100 + 99) / 100 + 1 := by omega
  have hoffs : pageOffsets T =
      0 :: (List.range ((T - 100 + 99) / 100)).map (fun k => 100 + 100 * k) := by
    have : pageOffsets T = (List.range ((T + 99) / 100)).map (fun k => 0 + 100 * k) := by
      simp [pageOffsets]
    rw [this, hsplit, range_map_offsets]
  rw [hoffs]
  simp [List.foldl_cons, List.append_assoc]

/-- C5 witness: total 250 with page size 100 requests exactly the three
pages at offsets 0, 100, 200 and merges all three identifiers into one
index. -/
theorem pagination_shape_witness :
    getIssues server250 10 =
      some ([0, 100, 200],
        [("p0", "SJP-101"), ("p100", "SJP-102"), ("p200", "SJP-103")]) := by
  have h := pagination_shape server250 250 10 (by omega)
    (fun off => by unfold server250; split_ifs <;> rfl)
    (fun off => by unfold server250; split_ifs <;> rfl)
    (by omega)
  rw [h]
  decide

/-! ### Claim C1 -/

/-- C1, counterexample: the formatter uses the runtime's local time zone
(no `timeZone` option is passed to `Intl.DateTimeFormat`), so two runs of
the renderer on the identical (identifier, url, notes) input under
different local zones produce different bytes: a note stamped
`2024-01-01` (UTC midnight) renders as `2024-01-01` under UTC and as
`2023-12-31` under UTC−1. -/
theorem render_tz_counterexample :
    render "p" "u" [⟨"2024-01-01", "n"⟩] 0 ≠ render "p" "u" [⟨"2024-01-01", "n"⟩] (-60) := by
  decide

/-- C1, amended: rendering is deterministic only relative to the
runtime's local time zone — for one fixed zone offset the output is a
pure function of the input, and the formatted date depends only on the
calendar day of the timestamp in that zone (no time-of-day leaks into
the bytes). -/
theorem render_deterministic_per_tz (id url : String) (notes : List Note) (tz1 tz2 : Int)
    (h : tz1 = tz2) :
    render id url notes tz1 = render id url notes tz2
    ∧ ∀ ms1 ms2 : Int,
        Int.fdiv (ms1 + tz1 * 60000) 86400000 = Int.fdiv (ms2 + tz1 * 60000) 86400000 →
        fmtDate tz1 ms1 = fmtDate tz1 ms2 := by
  subst h
  refine ⟨rfl, fun ms1 ms2 hday => ?_⟩
  simp only [fmtDate]
  rw [hday]

/-- C1 witness: identical renders under the same zone, and two
timestamps in the same local calendar day format identically. -/
theorem render_deterministic_per_tz_witness :
    render "a" "u" [⟨"2024-01-01", "n"⟩] 120 = render "a" "u" [⟨"2024-01-01", "n"⟩] 120
    ∧ fmtDate 120 5000 = fmtDate 120 6000 := by
  have h := render_deterministic_per_tz "a" "u" [⟨"2024-01-01", "n"⟩] 120 120 rfl
  exact ⟨h.1, h.2 5000 6000 (by decide)⟩

/-! ### Claim C2 -/

/-- C2, counterexample: a note stamped `1970-01-01` parses to the valid
timestamp 0, yet the rendered description drops it — the JS retention
test `if (date)` is falsy at 0, not only at `NaN`. -/
theorem render_epoch_note_dropped :
    dateParse "1970-01-01" = some 0
    ∧ render "p" "x" [⟨"1970-01-01", "nu"⟩] 0 = "id: p\nurl: x\nnotes:\n" := by
  constructor
  · decide
  · decide

/-- C2, amended: the rendered description is exactly the template
`id: <identifier>`, `url: <url>`, `notes:` followed by one
`  - <date>: <note url>` line per retained note, where the retained
notes are those whose timestamp parses to a valid nonzero point in time
(unparsable timestamps and the epoch itself are excluded), listed in
ascending timestamp order with equal timestamps kept in their original
order. -/
lemma nl_notes_merge : ("\n" : String) ++ "notes:\n" = "\nnotes:\n" := rfl

theorem render_template_sorted (id url : String) (notes : List Note) (tz : Int) :
    render id url notes tz =
      "id: " ++ id ++ "\n" ++ "url: " ++ url ++ "\n" ++ "notes:\n" ++
        noteLines tz (sortNotes (filterNotes notes))
    ∧ List.Sorted noteLE (sortNotes (filterNotes notes))
    ∧ (sortNotes (filterNotes notes)).Perm (filterNotes notes)
    ∧ ∀ t : Int, (sortNotes (filterNotes notes)).filter (fun n => n.1 == t) =
        (filterNotes notes).filter (fun n => n.1 == t) := by
  refine ⟨?_, List.sorted_insertionSort noteLE _, List.perm_insertionSort noteLE _,
    fun t => filter_sortNotes t _⟩
  simp only [render]
  rw [foldl_noteLines]
  simp [String.append_assoc]
  rw [← String.append_assoc "\n" "notes:\n", nl_notes_merge]

end TC39
